import Mathlib

/-!
Verification of the core of vmod-fileserver (src/lib.rs): a shallow
embedding of the path resolver, MIME-database loader, conditional-request
evaluation, last-modified formatting, the pull-based file stream, the
backend constructor and the request handler, together with theorems about
the properties stated for them.
-/

namespace Fileserver

/-- Split a character list at every occurrence of a separator character,
keeping empty pieces, as Rust path splitting does at every slash. The
second argument accumulates the current piece in reverse. -/
def splitChar (sep : Char) : List Char → List Char → List String
  | [], cur => [String.mk cur.reverse]
  | c :: cs, cur =>
    if c = sep then String.mk cur.reverse :: splitChar sep cs []
    else splitChar sep cs (c :: cur)

/-! ## PathResolver: assemble_file_path (src/lib.rs lines 405-431)

The Rust code iterates over `url_path.components()` (Unix): a leading
slash yields RootDir, a leading `.` segment yields CurDir (non-leading
`.` segments are normalized away by the components iterator, and
repeated separators produce no component), `..` yields ParentDir, and
anything else yields Normal. The loop drops RootDir and CurDir, pops on
ParentDir, and pushes Normal segments. Splitting the URL at every slash
and treating empty and `.` pieces as contributing nothing is exactly
that composite behaviour. -/

/-- One iteration of the component loop in assemble_file_path: empty
pieces (the leading root marker and repeated separators) and the dot
segment contribute nothing, a dot-dot segment pops the most recently
pushed segment (`Vec::pop`, a no-op on an empty stack), any other
segment is pushed verbatim. -/
def componentStep (acc : List String) (s : String) : List String :=
  if s = "" ∨ s = "." then acc
  else if s = ".." then acc.dropLast
  else acc ++ [s]

/-- The list of retained segments for a URL path, as computed by the
loop over components in assemble_file_path. -/
def retainedSegments (url : String) : List String :=
  (splitChar '/' url.data []).foldl componentStep []

/-- assemble_file_path (src/lib.rs lines 405-431): starts from the root
path string and appends a slash plus each retained segment. It is a
total pure function with no filesystem access (the trailing
`PathBuf::from` wraps the string unchanged). The Rust code asserts that
root_path is nonempty before doing anything else. -/
def assemble_file_path (root_path : String) (url : String) : String :=
  (retainedSegments url).foldl (fun p c => p ++ "/" ++ c) root_path

/-- Joining any list of segments onto a base string either leaves the
base unchanged (no segments) or appends a slash and more text. -/
theorem foldl_join_cases (cs : List String) (p : String) :
    cs.foldl (fun p c => p ++ "/" ++ c) p = p ∨
    ∃ rest, cs.foldl (fun p c => p ++ "/" ++ c) p = p ++ "/" ++ rest := by
  induction cs generalizing p with
  | nil => exact Or.inl rfl
  | cons c cs ih =>
    rcases ih (p ++ "/" ++ c) with h | ⟨rest, h⟩
    · exact Or.inr ⟨c, by simpa using h⟩
    · refine Or.inr ⟨c ++ "/" ++ rest, ?_⟩
      rw [List.foldl_cons, h]
      simp [String.append_assoc]

/-- Claim C2: for every non-empty root path R and every URL path U, the
path returned by assemble_file_path is R itself or R followed by a slash
and further text, hence always lexically a descendant of R; the function
is pure and total (no filesystem access, no failure mode). -/
theorem resolve_confined (R U : String) (hR : R ≠ "") :
    assemble_file_path R U = R ∨
    ∃ rest, assemble_file_path R U = R ++ "/" ++ rest :=
  foldl_join_cases (retainedSegments U) R

/-- Witness for resolve_confined at concrete inputs. -/
theorem resolve_confined_witness :
    ("/foo/bar" : String) ≠ "" ∧
    (assemble_file_path "/foo/bar" "/baz/qux" = "/foo/bar" ∨
      ∃ rest, assemble_file_path "/foo/bar" "/baz/qux" = "/foo/bar" ++ "/" ++ rest) :=
  ⟨by decide, resolve_confined "/foo/bar" "/baz/qux" (by decide)⟩

/-- Claim C3: the component loop drops the leading root marker (an empty
piece) and dot segments, pops the most recently pushed segment on a
dot-dot segment (silently a no-op when nothing is pushed), pushes every
other segment verbatim, and on the two concrete examples produces
/foo/bar/qux and /foo/bar/bar/qux. -/
theorem resolve_segment_rules :
    (∀ acc : List String, componentStep acc "" = acc ∧ componentStep acc "." = acc) ∧
    (∀ acc : List String, componentStep acc ".." = acc.dropLast) ∧
    (∀ (acc : List String) (s : String), s ≠ "" → s ≠ "." → s ≠ ".." →
      componentStep acc s = acc ++ [s]) ∧
    assemble_file_path "/foo/bar" "/bar/../../qux" = "/foo/bar/qux" ∧
    assemble_file_path "/foo/bar" "/bar/././qux" = "/foo/bar/bar/qux" := by
  refine ⟨fun acc => ⟨?_, ?_⟩, fun acc => ?_, fun acc s h1 h2 h3 => ?_, by decide, by decide⟩
  · simp [componentStep]
  · simp [componentStep]
  · unfold componentStep
    rw [if_neg (by decide), if_pos rfl]
  · unfold componentStep
    rw [if_neg (by simp [h1, h2]), if_neg h3]

/-- Witness for resolve_segment_rules: the ordinary-segment rule at a
concrete stack and segment. -/
theorem resolve_segment_rules_witness :
    componentStep ["a"] "qux" = ["a", "qux"] :=
  resolve_segment_rules.2.2.1 ["a"] "qux" (by decide) (by decide) (by decide)

/-! ## MimeTable: build_mime_dict (src/lib.rs lines 354-378)

The Rust code reads the database line by line, splits each line on
whitespace, skips lines with no token, skips lines whose first token
starts with a hash character, and inserts every remaining token as an
extension mapped to the first token, failing when the extension is
already present. The HashMap is modelled as an association list whose
keys are inserted at most once. Reading the file is modelled by passing
the list of its lines. -/

/-- Split a character list at every character satisfying a predicate,
keeping empty pieces. -/
def splitPred (p : Char → Bool) : List Char → List Char → List String
  | [], cur => [String.mk cur.reverse]
  | c :: cs, cur =>
    if p c then String.mk cur.reverse :: splitPred p cs []
    else splitPred p cs (c :: cur)

/-- Rust split_whitespace: pieces between whitespace characters, with
empty pieces dropped (ASCII whitespace, which is what MIME databases
contain). -/
def split_whitespace (s : String) : List String :=
  (splitPred Char.isWhitespace s.data []).filter (fun piece => piece ≠ "")

/-- The MIME table: extension to MIME type. -/
abbrev MimeMap := List (String × String)

/-- HashMap::get on the association-list model. -/
def mapGet (h : MimeMap) (k : String) : Option String :=
  match h with
  | [] => none
  | (k2, v) :: rest => if k2 = k then some v else mapGet rest k

/-- The exact duplicate-extension error message built at src/lib.rs
line 372. -/
def dupError (path ext old_mime mime : String) : String :=
  "fileserver: error, in " ++ path ++ ", extension " ++ ext ++
    " appears to have two types (" ++ old_mime ++ " and " ++ mime ++ ")"

/-- The inner loop of build_mime_dict over the remaining tokens of a
line: each extension already present yields the duplicate error, each
fresh extension is inserted mapped to the MIME type of the line. -/
def insertExts (path mime : String) : MimeMap → List String → Except String MimeMap
  | h, [] => .ok h
  | h, ext :: rest =>
    match mapGet h ext with
    | some old_mime => .error (dupError path ext old_mime mime)
    | none => insertExts path mime ((ext, mime) :: h) rest

/-- Processing one line of the database: no token skips the line, a
first token starting with a hash skips the line (the Rust code inspects
the first character, defaulting to a dash on an empty token, which
split_whitespace never produces), otherwise the remaining tokens are
inserted. -/
def processLine (path : String) (h : MimeMap) (l : String) : Except String MimeMap :=
  match split_whitespace l with
  | [] => .ok h
  | mime :: exts =>
    if mime.data.headD '-' = '#' then .ok h
    else insertExts path mime h exts

/-- build_mime_dict over the list of lines of the database file. -/
def build_mime_dict (path : String) (lines : List String) : Except String MimeMap :=
  lines.foldlM (processLine path) []

/-- insertExts never changes an existing binding: it only adds keys that
were absent. -/
theorem insertExts_mapGet_mono (path mime : String) (exts : List String) :
    ∀ (h r : MimeMap), insertExts path mime h exts = .ok r →
    ∀ k v, mapGet h k = some v → mapGet r k = some v := by
  induction exts with
  | nil =>
    intro h r hok k v hk
    cases hok
    exact hk
  | cons ext rest ih =>
    intro h r hok k v hk
    unfold insertExts at hok
    cases hg : mapGet h ext with
    | some o => rw [hg] at hok; cases hok
    | none =>
      rw [hg] at hok
      refine ih _ r hok k v ?_
      unfold mapGet
      rw [if_neg ?_]
      · exact hk
      · intro he
        rw [he, hk] at hg
        cases hg


/-- In the success case every processed extension is mapped to the MIME
type of the line. -/
theorem insertExts_mapGet_ok (path mime : String) (exts : List String) :
    ∀ (h r : MimeMap), insertExts path mime h exts = .ok r →
    ∀ e ∈ exts, mapGet r e = some mime := by
  induction exts with
  | nil =>
    intro h r _ e he
    cases he
  | cons ext rest ih =>
    intro h r hok e he
    unfold insertExts at hok
    cases hg : mapGet h ext with
    | some o => rw [hg] at hok; cases hok
    | none =>
      rw [hg] at hok
      rcases List.mem_cons.mp he with rfl | hmem
      · refine insertExts_mapGet_mono path mime rest _ r hok e mime ?_
        unfold mapGet
        rw [if_pos rfl]
      · exact ih _ r hok e hmem

/-- An extension that already has a mapping makes insertExts fail. -/
theorem insertExts_dup_error (path mime : String) (exts : List String) :
    ∀ (h : MimeMap) (e : String), e ∈ exts → mapGet h e ≠ none →
    ∃ err, insertExts path mime h exts = .error err := by
  induction exts with
  | nil =>
    intro h e he _
    cases he
  | cons ext rest ih =>
    intro h e he hdup
    unfold insertExts
    cases hg : mapGet h ext with
    | some o => exact ⟨dupError path ext o mime, rfl⟩
    | none =>
      rcases List.mem_cons.mp he with rfl | hmem
      · exact absurd hg hdup
      · refine ih ((ext, mime) :: h) e hmem ?_
        unfold mapGet
        split
        · simp
        · exact hdup

/-- Claim C4: build_mime_dict reads the database line by line, skips
empty lines and lines whose first token starts with a hash, maps every
remaining token of a non-comment line to the first token of that line,
fails naming path, extension and both MIME types whenever an extension
that already has a mapping is mapped again (also to a same-looking
type), and on the section 8 example the error names the file, txt,
application/pdf and application/text. -/
theorem mime_dict_rules :
    (∀ path h l, split_whitespace l = [] → processLine path h l = .ok h) ∧
    (∀ path h l m exts, split_whitespace l = m :: exts →
      m.data.headD '-' = '#' → processLine path h l = .ok h) ∧
    (∀ path h l m exts r, split_whitespace l = m :: exts →
      ¬ m.data.headD '-' = '#' → processLine path h l = .ok r →
      ∀ e ∈ exts, mapGet r e = some m) ∧
    (∀ path h l m exts e, split_whitespace l = m :: exts →
      ¬ m.data.headD '-' = '#' → e ∈ exts → mapGet h e ≠ none →
      ∃ err, processLine path h l = .error err) ∧
    (∀ path, build_mime_dict path ["application/pdf\ttxt", "application/text\ttxt"] =
      .error (dupError path "txt" "application/pdf" "application/text")) ∧
    (∀ path, build_mime_dict path ["type1 ext1", "type1 ext1"] =
      .error (dupError path "ext1" "type1" "type1")) := by
  refine ⟨?_, ?_, ?_, ?_, fun path => rfl, fun path => rfl⟩
  · intro path h l hsplit
    unfold processLine
    rw [hsplit]
  · intro path h l m exts hsplit hhash
    have hpl : processLine path h l =
        if m.data.headD '-' = '#' then .ok h else insertExts path m h exts := by
      unfold processLine
      rw [hsplit]
    rw [hpl, if_pos hhash]
  · intro path h l m exts r hsplit hhash hok
    have hpl : processLine path h l =
        if m.data.headD '-' = '#' then .ok h else insertExts path m h exts := by
      unfold processLine
      rw [hsplit]
    rw [hpl, if_neg hhash] at hok
    exact insertExts_mapGet_ok path m exts h r hok
  · intro path h l m exts e hsplit hhash hmem hdup
    have hpl : processLine path h l =
        if m.data.headD '-' = '#' then .ok h else insertExts path m h exts := by
      unfold processLine
      rw [hsplit]
    rw [hpl, if_neg hhash]
    exact insertExts_dup_error path m exts h e hmem hdup

/-- Witness for mime_dict_rules: a duplicate extension at concrete
inputs yields an error. -/
theorem mime_dict_rules_witness :
    ∃ err, processLine "db.types" [("txt", "application/pdf")] "application/text txt" =
      .error err :=
  mime_dict_rules.2.2.2.1 "db.types" [("txt", "application/pdf")] "application/text txt"
    "application/text" ["txt"] "txt" (by decide) (by decide) (by decide) (by decide)

/-! ## ConditionalEvaluator (src/lib.rs lines 264-275) -/

/-- Rust str::starts_with on the character-list view (the strings
involved are ASCII, so bytes and characters coincide). -/
def charsStartWith : List Char → List Char → Bool
  | _, [] => true
  | [], _ :: _ => false
  | c :: cs, p :: ps => c = p && charsStartWith cs ps

/-- The slice from offset 2 used to strip the weak-validator marker (two
ASCII bytes, hence two characters). -/
def dropMarker (s : String) : String := String.mk (s.data.drop 2)

/-- The if-none-match comparison at src/lib.rs line 266: a direct match
with the etag, or a leading W/ marker stripped and the remainder
matched. -/
def inmMatches (inm etag : String) : Bool :=
  inm == etag || (charsStartWith inm.data ['W', '/'] && dropMarker inm == etag)

/-- The conditional evaluation at src/lib.rs lines 264-275, deciding
whether the response can be a 304. The parse argument stands for chrono
DateTime::parse_from_rfc2822, an external library collaborator: it
returns the parsed instant for a valid RFC-2822 date and nothing for an
unparsable value; instants are integers in timeline order. The
if-none-match header is consulted first; only in its absence is
if-modified-since considered, and the file counts as not modified
exactly when the supplied time is strictly greater than the file
modification time. -/
def is_304 (inm ims : Option String) (parseRfc2822 : String → Option Int)
    (etag : String) (modified : Int) : Bool :=
  match inm with
  | some v => inmMatches v etag
  | none =>
    match ims with
    | some s =>
      match parseRfc2822 s with
      | some t => decide (t > modified)
      | none => false
    | none => false

/-- Claim C5: with an if-none-match header present the decision is the
etag comparison alone (with optional weak-marker stripping) and the
if-modified-since header is never consulted; without it, an unparsable
if-modified-since yields modified, a parsed one yields not-modified
exactly when the supplied time is strictly greater than the modification
time; with neither header the result is modified. -/
theorem conditional_first_rule_wins :
    (∀ v ims p etag m, is_304 (some v) ims p etag m =
      (v == etag || (charsStartWith v.data ['W', '/'] && dropMarker v == etag))) ∧
    (∀ s p etag m, p s = none → is_304 none (some s) p etag m = false) ∧
    (∀ s t p etag m, p s = some t →
      (is_304 none (some s) p etag m = true ↔ t > m)) ∧
    (∀ p etag m, is_304 none none p etag m = false) := by
  refine ⟨fun v ims p etag m => rfl, ?_, ?_, fun p etag m => rfl⟩
  · intro s p etag m hp
    show (match p s with
      | some t => decide (t > m)
      | none => false) = false
    rw [hp]
  · intro s t p etag m hp
    show (match p s with
      | some t => decide (t > m)
      | none => false) = true ↔ t > m
    rw [hp]
    simp

/-- Witness for conditional_first_rule_wins: an unparsable
if-modified-since value yields modified. -/
theorem conditional_first_rule_wins_witness :
    is_304 none (some "not a date") (fun _ => none) "\"1\"" 0 = false :=
  conditional_first_rule_wins.2.1 "not a date" (fun _ => none) "\"1\"" 0 rfl

/-! ## Last-modified formatting (src/lib.rs line 330)

The handler renders the last-modified header with the chrono format
string "%a, %d %b %Y  %H:%M:%S GMT" — with two literal spaces between
%Y and %H, exactly as written in the source. The calendar computation
for a Utc DateTime is the standard civil-from-days algorithm; it is
reproduced here for an instant given as whole seconds since the Unix
epoch (%S renders whole seconds). -/

/-- Two-digit zero padding (chrono %d, %H, %M, %S). -/
def pad2 (n : Nat) : String := if n < 10 then "0" ++ toString n else toString n

/-- Year zero-padded to four digits (chrono %Y; modification times are
far later than year 0, so the negative branch is a formality). -/
def padYear (y : Int) : String :=
  if y < 0 then "-" ++ toString (-y)
  else if y < 10 then "000" ++ toString y
  else if y < 100 then "00" ++ toString y
  else if y < 1000 then "0" ++ toString y
  else toString y

/-- Abbreviated weekday names (chrono %a), indexed from Sunday. -/
def weekdayName (n : Nat) : String :=
  ["Sun", "Mon", "Tue", "Wed", "Thu", "Fri", "Sat"].getD n ""

/-- Abbreviated month names (chrono %b), indexed from one. -/
def monthName (n : Nat) : String :=
  ["Jan", "Feb", "Mar", "Apr", "May", "Jun",
   "Jul", "Aug", "Sep", "Oct", "Nov", "Dec"].getD (n - 1) ""

/-- Civil (year, month, day) of a day count relative to 1970-01-01, by
the standard era-based algorithm underlying the chrono calendar. -/
def civilFromDays (z0 : Int) : Int × Nat × Nat :=
  let z := z0 + 719468
  let era := Int.fdiv z 146097
  let doe := (z - era * 146097).toNat
  let yoe := (doe - doe / 1460 + doe / 36524 - doe / 146096) / 365
  let doy := doe - (365 * yoe + yoe / 4 - yoe / 100)
  let mp := (5 * doy + 2) / 153
  let d := doy - (153 * mp + 2) / 5 + 1
  let m := if mp < 10 then mp + 3 else mp - 9
  let y := (yoe : Int) + era * 400 + (if m ≤ 2 then 1 else 0)
  (y, m, d)

/-- The last-modified header value set at src/lib.rs line 330 for a file
modified t whole seconds after the Unix epoch: the chrono rendering of
the format string "%a, %d %b %Y  %H:%M:%S GMT" from the source, two
spaces between year and hour included. -/
def lastModifiedValue (t : Int) : String :=
  let days := Int.fdiv t 86400
  let secs := (Int.emod t 86400).toNat
  let ymd := civilFromDays days
  weekdayName ((Int.emod (days + 4) 7).toNat) ++ ", " ++
    pad2 ymd.2.2 ++ " " ++ monthName ymd.2.1 ++ " " ++ padYear ymd.1 ++ "  " ++
    pad2 (secs / 3600) ++ ":" ++ pad2 (secs % 3600 / 60) ++ ":" ++ pad2 (secs % 60) ++
    " GMT"

/-- Claim C1 (behaviour of the code at the failing input): for a file
modified at 2015-10-21 07:28:00 UTC the produced header value carries
two spaces between the year and the time of day, and therefore differs
from the single-space RFC-1123 rendering the claim requires. -/
theorem last_modified_two_spaces :
    lastModifiedValue 1445412480 = "Wed, 21 Oct 2015  07:28:00 GMT" ∧
    lastModifiedValue 1445412480 ≠ "Wed, 21 Oct 2015 07:28:00 GMT" := by
  constructor
  · decide
  · decide

/-! ## FileTransferStream: BackendResp and its pull (src/lib.rs lines 145-162)

The stream owns a BufReader over the opened file wrapped in io::Take
with limit cl, the file size recorded at open time (src/lib.rs line
318). The state is modelled by the bytes the underlying file would
deliver from the current position (which may exceed the cap if the file
has grown since opening), the remaining Take limit, and whether the
underlying read fails. Take returns zero at once when its limit is
exhausted, without touching the file; otherwise it requests at most
min(buffer, limit) bytes from the file and decreases the limit by the
bytes obtained. The pull implementation first returns zero for an empty
buffer, then maps a failed read to an error, a zero-byte read to
end-of-stream, and otherwise reports the bytes written. -/

/-- The per-request stream state behind the VFP. -/
structure BackendResp where
  file : List UInt8
  limit : Nat
  failing : Bool
deriving DecidableEq

/-- The result of one pull: bytes written, end of stream, or error. -/
inductive PullResult where
  | Ok (n : Nat)
  | End (n : Nat)
  | Err
deriving DecidableEq

/-- BackendResp::pull (src/lib.rs lines 152-161) together with the Take
bound of the reader it owns. -/
def BackendResp.pull (st : BackendResp) (bufCap : Nat) : PullResult × BackendResp :=
  if bufCap = 0 then (.Ok 0, st)
  else if st.limit = 0 then (.End 0, st)
  else if st.failing then (.Err, st)
  else
    let n := min (min bufCap st.limit) st.file.length
    if n = 0 then (.End 0, st)
    else (.Ok n, { st with file := st.file.drop n, limit := st.limit - n })

/-- Bytes delivered by one pull result. -/
def pullYield : PullResult → Nat
  | .Ok n => n
  | .End n => n
  | .Err => 0

/-- Total bytes delivered by a sequence of pulls with the given buffer
capacities. -/
def pullAll (st : BackendResp) : List Nat → Nat
  | [] => 0
  | c :: cs =>
    let r := st.pull c
    pullYield r.1 + pullAll r.2 cs

/-- One pull delivers at most the remaining cap, and the cap decreases
accordingly. -/
theorem pull_step_le (st : BackendResp) (c : Nat) :
    pullYield (st.pull c).1 + (st.pull c).2.limit ≤ st.limit := by
  simp only [BackendResp.pull]
  split
  · simp [pullYield]
  · split
    · simp [pullYield]
    · split
      · simp [pullYield]
      · split
        · simp [pullYield]
        · simp only [pullYield]
          have h1 : min (min c st.limit) st.file.length ≤ min c st.limit :=
            Nat.min_le_left _ _
          have h2 : min c st.limit ≤ st.limit := Nat.min_le_right _ _
          omega

/-- The total over any pull sequence never exceeds the remaining cap. -/
theorem pullAll_le (caps : List Nat) :
    ∀ st : BackendResp, pullAll st caps ≤ st.limit := by
  induction caps with
  | nil =>
    intro st
    simp [pullAll]
  | cons c cs ih =>
    intro st
    have h1 := pull_step_le st c
    have h2 := ih (st.pull c).2
    simp only [pullAll]
    omega

/-- Claim C6: each pull writes at most min(buffer capacity, remaining
cap) bytes; with the cap exhausted a nonempty buffer gets end-of-stream
even when the underlying file still holds bytes (the state is arbitrary,
covering a file grown after opening); the total over any pull sequence
never exceeds the recorded cap; a failing underlying read that is
actually attempted yields an error; and a zero-capacity buffer returns
zero bytes written, neither an error nor an end signal. -/
theorem stream_pull_contract :
    (∀ (st : BackendResp) (c n : Nat) (st2 : BackendResp),
      st.pull c = (.Ok n, st2) → n ≤ min c st.limit) ∧
    (∀ (st : BackendResp) (c : Nat), c ≠ 0 → st.limit = 0 →
      st.pull c = (.End 0, st)) ∧
    (∀ (st : BackendResp) (caps : List Nat), pullAll st caps ≤ st.limit) ∧
    (∀ (st : BackendResp) (c : Nat), c ≠ 0 → st.limit ≠ 0 → st.failing = true →
      st.pull c = (.Err, st)) ∧
    (∀ st : BackendResp, st.pull 0 = (.Ok 0, st)) := by
  refine ⟨?_, ?_, fun st caps => pullAll_le caps st, ?_, fun st => rfl⟩
  · intro st c n st2 h
    simp only [BackendResp.pull] at h
    split at h
    · simp only [Prod.mk.injEq, PullResult.Ok.injEq] at h
      rw [← h.1]
      exact Nat.zero_le _
    · split at h
      · simp at h
      · split at h
        · simp at h
        · split at h
          · simp at h
          · simp only [Prod.mk.injEq, PullResult.Ok.injEq] at h
            rw [← h.1]
            exact Nat.min_le_left _ _
  · intro st c hc hl
    simp only [BackendResp.pull]
    rw [if_neg hc, if_pos hl]
  · intro st c hc hl hf
    simp only [BackendResp.pull]
    rw [if_neg hc, if_neg hl, if_pos hf]

/-- Witness for stream_pull_contract: a stream whose cap is exhausted
signals end-of-stream although the underlying file still has two
bytes. -/
theorem stream_pull_contract_witness :
    ({ file := [7, 7], limit := 0, failing := false } : BackendResp).pull 4 =
      (.End 0, { file := [7, 7], limit := 0, failing := false }) :=
  stream_pull_contract.2.1 { file := [7, 7], limit := 0, failing := false } 4
    (by decide) rfl

/-! ## Backend construction: root::new (src/lib.rs lines 76-123)

Opening and reading the MIME database touches the filesystem; it is
modelled by a map from paths to the lines of the files that exist.
VRT_AddDirector and the raw-pointer bookkeeping are host glue outside
the core. The Rust match arm Some("") is rendered as an equality test
on the matched string, which is how the literal pattern is compiled. -/

/-- The configuration held by a constructed backend. -/
structure BackendInfo where
  path : String
  mimes : Option MimeMap
deriving DecidableEq

/-- build_mime_dict including the file open (src/lib.rs line 357): a
missing file is an open error, an existing file is parsed from its
lines. -/
def build_mime_dict_fs (fs : String → Option (List String)) (p : String) :
    Except String MimeMap :=
  match fs p with
  | none => .error "No such file or directory (os error 2)"
  | some ls => build_mime_dict p ls

/-- root::new (src/lib.rs lines 76-123): an empty root path is a fatal
configuration error; with no database path the well-known default
/etc/mime.types is attempted and any failure swallowed (Result::ok);
an explicit empty string disables the MIME table without touching the
filesystem; an explicit non-empty path must load, any failure aborting
construction with the load error. -/
def root_new (vcl_name path : String) (mime_db : Option String)
    (fs : String → Option (List String)) : Except String BackendInfo :=
  if path = "" then
    .error ("fileserver: can\x27t create " ++ vcl_name ++ " with an empty path")
  else
    match mime_db with
    | none => .ok ⟨path, (build_mime_dict_fs fs "/etc/mime.types").toOption⟩
    | some p =>
      if p = "" then .ok ⟨path, none⟩
      else
        match build_mime_dict_fs fs p with
        | .error e => .error e
        | .ok m => .ok ⟨path, some m⟩

/-- Claim C7: the three-way MIME-database policy of backend
construction: a failed default load is swallowed leaving no table, a
successful one is kept, an explicit empty string never loads and leaves
no table whatever the filesystem holds, an explicit non-empty path
propagates any load failure as a fatal error, and an empty root path
aborts construction. -/
theorem backend_construction_policy :
    (∀ name path fs e, path ≠ "" →
      build_mime_dict_fs fs "/etc/mime.types" = .error e →
      root_new name path none fs = .ok ⟨path, none⟩) ∧
    (∀ name path fs m, path ≠ "" →
      build_mime_dict_fs fs "/etc/mime.types" = .ok m →
      root_new name path none fs = .ok ⟨path, some m⟩) ∧
    (∀ name path fs, path ≠ "" →
      root_new name path (some "") fs = .ok ⟨path, none⟩) ∧
    (∀ name path db fs e, path ≠ "" → db ≠ "" →
      build_mime_dict_fs fs db = .error e →
      root_new name path (some db) fs = .error e) ∧
    (∀ name db fs, root_new name "" db fs =
      .error ("fileserver: can\x27t create " ++ name ++ " with an empty path")) := by
  refine ⟨?_, ?_, ?_, ?_, fun name db fs => ?_⟩
  · intro name path fs e hp he
    unfold root_new
    rw [if_neg hp]
    show Except.ok (⟨path, (build_mime_dict_fs fs "/etc/mime.types").toOption⟩ : BackendInfo) = _
    rw [he]
    exact rfl
  · intro name path fs m hp he
    unfold root_new
    rw [if_neg hp]
    show Except.ok (⟨path, (build_mime_dict_fs fs "/etc/mime.types").toOption⟩ : BackendInfo) = _
    rw [he]
    exact rfl
  · intro name path fs hp
    unfold root_new
    rw [if_neg hp]
    exact rfl
  · intro name path db fs e hp hdb he
    unfold root_new
    rw [if_neg hp]
    show (if db = "" then Except.ok (⟨path, none⟩ : BackendInfo)
      else match build_mime_dict_fs fs db with
        | .error e => .error e
        | .ok m => .ok ⟨path, some m⟩) = .error e
    rw [if_neg hdb, he]
  · rfl

/-- Witness for backend_construction_policy: an explicit empty database
path yields a backend with no MIME table on an empty filesystem. -/
theorem backend_construction_policy_witness :
    root_new "be" "/srv" (some "") (fun _ => none) = .ok ⟨"/srv", none⟩ :=
  backend_construction_policy.2.2.1 "be" "/srv" (fun _ => none) (by decide)

/-! ## RequestHandler: the decision core of be_gethdrs (src/lib.rs lines 207-345)

The embedding covers the pure decision core of be_gethdrs after the
file was opened and its metadata read (a failed open or stat aborts the
fetch through maybe_fail before any of this runs): inputs are the MIME
table of the backend, the request method, the two conditional headers,
the file size cl, the bytes and read health of the opened file, the
modification time, the etag computed by generate_etag (an opaque
string: generate_etag hashes inode, size and modification time with the
std DefaultHasher, an external library collaborator, and wraps the
decimal rendering in double quotes), and the extension of the resolved
path. Host-side plumbing (workspace allocation, request-body draining,
logging, the htc bookkeeping) is out of scope. The order of operations
of the source is kept: the method gate returns before any header is
set; otherwise the status and body are decided and then content-length,
etag and last-modified are always set, plus content-type when the file
is non-empty and its extension maps in the MIME table. -/

/-- The produced response: status, headers in insertion order, optional
body stream. -/
structure Resp where
  status : Nat
  headers : List (String × String)
  body : Option BackendResp
deriving DecidableEq

/-- The decision core of be_gethdrs (src/lib.rs lines 264-341). -/
def be_gethdrs_core (mimes : Option MimeMap) (method : Option String)
    (inm ims : Option String) (parseRfc2822 : String → Option Int)
    (cl : Nat) (fileBytes : List UInt8) (readFails : Bool)
    (modified : Int) (etag : String) (ext : Option String) : Resp :=
  let is304 := is_304 inm ims parseRfc2822 etag modified
  if method ≠ some "HEAD" ∧ method ≠ some "GET" then
    { status := 405, headers := [], body := none }
  else
    let status := if is304 then 304 else 200
    let body :=
      if is304 then none
      else if method = some "HEAD" then none
      else some { file := fileBytes, limit := cl, failing := readFails }
    let headers := [("content-length", toString cl), ("etag", etag),
                    ("last-modified", lastModifiedValue modified)]
    let headers :=
      if cl > 0 then
        match ext, mimes with
        | some e, some h =>
          match mapGet h e with
          | some ct => headers ++ [("content-type", ct)]
          | none => headers
        | _, _ => headers
      else headers
    { status := status, headers := headers, body := body }

/-- Claim C8: for every request the handler core completes on, the
produced status code is one of exactly 200, 304 and 405. -/
theorem handler_status_values (mimes : Option MimeMap) (method inm ims : Option String)
    (p : String → Option Int) (cl : Nat) (fb : List UInt8) (rf : Bool)
    (modified : Int) (etag : String) (ext : Option String) :
    (be_gethdrs_core mimes method inm ims p cl fb rf modified etag ext).status = 200 ∨
    (be_gethdrs_core mimes method inm ims p cl fb rf modified etag ext).status = 304 ∨
    (be_gethdrs_core mimes method inm ims p cl fb rf modified etag ext).status = 405 := by
  simp only [be_gethdrs_core]
  split
  · exact Or.inr (Or.inr rfl)
  · cases hb : is_304 inm ims p etag modified
    · simp [hb]
    · simp [hb]

/-- Claim C9: a GET or HEAD request evaluated as not modified yields
status 304 with no body stream, and the very header list a normal
response to the same request without conditional headers would carry,
content-length (the actual file size) included. -/
theorem handler_not_modified (mimes : Option MimeMap) (method inm ims : Option String)
    (p : String → Option Int) (cl : Nat) (fb : List UInt8) (rf : Bool)
    (modified : Int) (etag : String) (ext : Option String)
    (hm : method = some "GET" ∨ method = some "HEAD")
    (h304 : is_304 inm ims p etag modified = true) :
    (be_gethdrs_core mimes method inm ims p cl fb rf modified etag ext).status = 304 ∧
    (be_gethdrs_core mimes method inm ims p cl fb rf modified etag ext).body = none ∧
    (be_gethdrs_core mimes method inm ims p cl fb rf modified etag ext).headers =
      (be_gethdrs_core mimes method none none p cl fb rf modified etag ext).headers ∧
    ("content-length", toString cl) ∈
      (be_gethdrs_core mimes method inm ims p cl fb rf modified etag ext).headers := by
  have hcond : ¬ (method ≠ some "HEAD" ∧ method ≠ some "GET") := by
    rcases hm with h | h <;> simp [h]
  have h2 : is_304 none none p etag modified = false := rfl
  refine ⟨?_, ?_, ?_, ?_⟩
  · simp [be_gethdrs_core, if_neg hcond, h304]
  · simp [be_gethdrs_core, if_neg hcond, h304]
  · simp [be_gethdrs_core, if_neg hcond, h304, h2]
  · simp only [be_gethdrs_core, if_neg hcond, h304]
    split
    · rcases ext with _ | e <;> rcases mimes with _ | h
      · simp
      · simp
      · simp
      · rcases hg : mapGet h e with _ | ct <;> simp [hg]
    · simp

/-- Witness for handler_not_modified: a GET with a matching
if-none-match header at concrete inputs. -/
theorem handler_not_modified_witness :
    (be_gethdrs_core none (some "GET") (some "\"42\"") none (fun _ => none)
        10 [] false 0 "\"42\"" none).status = 304 ∧
    (be_gethdrs_core none (some "GET") (some "\"42\"") none (fun _ => none)
        10 [] false 0 "\"42\"" none).body = none ∧
    (be_gethdrs_core none (some "GET") (some "\"42\"") none (fun _ => none)
        10 [] false 0 "\"42\"" none).headers =
      (be_gethdrs_core none (some "GET") none none (fun _ => none)
        10 [] false 0 "\"42\"" none).headers ∧
    ("content-length", toString 10) ∈
      (be_gethdrs_core none (some "GET") (some "\"42\"") none (fun _ => none)
        10 [] false 0 "\"42\"" none).headers :=
  handler_not_modified none (some "GET") (some "\"42\"") none (fun _ => none)
    10 [] false 0 "\"42\"" none (Or.inl rfl) (by decide)

/-- Claim C10: a method that is not byte-for-byte GET or HEAD (a
lowercase spelling included) yields the 405 response with no body and
an empty header set, whatever the file metadata and MIME table say,
because the handler returns before any header-setting code runs. -/
theorem handler_method_gate (mimes : Option MimeMap) (method inm ims : Option String)
    (p : String → Option Int) (cl : Nat) (fb : List UInt8) (rf : Bool)
    (modified : Int) (etag : String) (ext : Option String)
    (h1 : method ≠ some "GET") (h2 : method ≠ some "HEAD") :
    be_gethdrs_core mimes method inm ims p cl fb rf modified etag ext =
      { status := 405, headers := [], body := none } := by
  unfold be_gethdrs_core
  rw [if_pos ⟨h2, h1⟩]

/-- Witness for handler_method_gate: the lowercase method get at
concrete inputs. -/
theorem handler_method_gate_witness :
    be_gethdrs_core none (some "get") none none (fun _ => none)
        10 [] false 0 "\"x\"" none =
      { status := 405, headers := [], body := none } :=
  handler_method_gate none (some "get") none none (fun _ => none)
    10 [] false 0 "\"x\"" none (by decide) (by decide)

end Fileserver
